import Mathlib

/-!
Verification development for the etl-healthcare record pipeline
(format adapters, normalization orchestrator, persistence engine).

The TypeScript sources are shallowly embedded: pure parsing, mapping and
validation functions become Lean functions; the stateful persistence engine
becomes explicit state passing over an association-list store; code that can
throw returns Except.  JavaScript numbers are modelled by an inductive type
with an explicit NaN and signed infinities over exact rationals (the pipeline
only moves numeric values around, it never computes with them, so float
rounding is irrelevant).  JavaScript strings that may be undefined are
modelled as plain strings with the empty string standing for undefined;
the only places the code distinguishes an absent field from an empty one
are JS truthiness tests, for which the two coincide.
-/

/-- Model of a JavaScript number as produced by Number(...): either NaN, a
signed infinity, or a finite decimal written as a mantissa m and a decimal
scale k denoting m / 10 ^ k.  The pipeline only moves values around and
never computes with them, so the unnormalized exact representation is
adequate and keeps every definition kernel-computable. -/
inductive JNum where
  | nan : JNum
  | posInf : JNum
  | negInf : JNum
  | num : Int → Nat → JNum
deriving DecidableEq, Repr

namespace JNum

/-- Number.isFinite: true exactly on finite numeric values. -/
def isFiniteNum : JNum → Bool
  | .num _ _ => true
  | _ => false

end JNum

/-- Numeric value of a list of decimal digit characters. -/
def digitsVal (l : List Char) : Nat :=
  l.foldl (fun a c => a * 10 + (c.toNat - 48)) 0

/-- Value of one hexadecimal digit character, or 255 when the character is
not a hexadecimal digit. -/
def hexDigitVal (c : Char) : Nat :=
  if 48 ≤ c.toNat ∧ c.toNat ≤ 57 then c.toNat - 48
  else if 97 ≤ c.toNat ∧ c.toNat ≤ 102 then c.toNat - 87
  else if 65 ≤ c.toNat ∧ c.toNat ≤ 70 then c.toNat - 55
  else 255

/-- Digit test for a given radix (used for the JS 0x / 0o / 0b literal forms). -/
def isRadixDigit (base : Nat) (c : Char) : Bool :=
  hexDigitVal c < base

/-- Value of a digit list in a given radix. -/
def radixVal (base : Nat) (l : List Char) : Nat :=
  l.foldl (fun a c => a * base + hexDigitVal c) 0

/-- JS Number(...) on a 0x / 0o / 0b prefixed literal body. -/
def radixNum (base : Nat) (l : List Char) : JNum :=
  if l ≠ [] ∧ l.all (isRadixDigit base) then .num (radixVal base l) 0 else .nan

/-- Apply the exponent of a JS decimal literal to a mantissa / scale pair:
a non-negative exponent multiplies the mantissa, a negative one deepens the
decimal scale. -/
def applyExp (m : Int) (k : Nat) (esign : Int) (edigits : Nat) : Int × Nat :=
  if esign = 1 then
    if edigits ≤ k then (m, k - edigits) else (m * (10 : Int) ^ (edigits - k), 0)
  else (m, k + edigits)

/-- Optional exponent suffix of a JS decimal numeric literal: empty, or
e / E followed by an optional sign and at least one digit. -/
def expPart (l : List Char) (m : Int) (k : Nat) : Option (Int × Nat) :=
  match l with
  | [] => some (m, k)
  | e :: r =>
    if e = 'e' ∨ e = 'E' then
      let se : Int × List Char :=
        match r with
        | '+' :: t => (1, t)
        | '-' :: t => (-1, t)
        | t => (1, t)
      if se.2 ≠ [] ∧ se.2.all Char.isDigit then
        some (applyExp m k se.1 (digitsVal se.2))
      else none
    else none

/-- Mantissa (integer part, optional fraction) and decimal scale of a JS
decimal numeric literal; none when the form is invalid. -/
def decMantExp (l : List Char) : Option (Int × Nat) :=
  let intd := l.takeWhile Char.isDigit
  let rest := l.dropWhile Char.isDigit
  match rest with
  | [] => if intd = [] then none else some (digitsVal intd, 0)
  | '.' :: r2 =>
    let frac := r2.takeWhile Char.isDigit
    let r3 := r2.dropWhile Char.isDigit
    if intd = [] ∧ frac = [] then none
    else expPart r3 (digitsVal (intd ++ frac)) frac.length
  | _ => if intd = [] then none else expPart rest (digitsVal intd) 0

/-- JS decimal literal with optional leading sign, including Infinity. -/
def decimalNum (l : List Char) : JNum :=
  let sb : Int × List Char :=
    match l with
    | '+' :: r => (1, r)
    | '-' :: r => (-1, r)
    | r => (1, r)
  if sb.2 = "Infinity".data then
    if sb.1 = 1 then .posInf else .negInf
  else
    match decMantExp sb.2 with
    | some mk => .num (sb.1 * mk.1) mk.2
    | none => .nan

/-- Model of the JavaScript Number(...) conversion on an already trimmed
string (both call sites in the source trim first): the empty string is 0,
0x / 0o / 0b literals, optional sign, decimal forms with optional fraction
and exponent, Infinity; anything else is NaN. -/
def jsNumber (s : String) : JNum :=
  match s.data with
  | [] => .num 0 0
  | '0' :: c :: rest =>
    if c = 'x' ∨ c = 'X' then radixNum 16 rest
    else if c = 'o' ∨ c = 'O' then radixNum 8 rest
    else if c = 'b' ∨ c = 'B' then radixNum 2 rest
    else decimalNum ('0' :: c :: rest)
  | l => decimalNum l

/-- Hexadecimal digit character for a value below 16 (lowercase, as Node
crypto digests use). -/
def hexDigitChar (n : Nat) : Char :=
  if n < 10 then Char.ofNat (48 + n) else Char.ofNat (87 + n)

/-- Models the observable behavior of the Node crypto sha256 hex digest used
for ingestHash: a deterministic function of the input producing a 64
character lowercase hexadecimal string.  The pipeline never inspects the
digest beyond its length and determinism, so the compression function is a
simple stand-in rather than real SHA-256. -/
def sha256Hex (s : String) : String :=
  let h := s.data.foldl (fun a c => (a * 131 + c.toNat) % (2 ^ 256)) 5381
  String.mk (((List.range 64).reverse).map (fun i => hexDigitChar ((h / 16 ^ i) % 16)))

/-- Tail of the fractional part of a zod datetime: zero or more digits
followed by a terminal Z. -/
def zodFracTail : List Char → Bool
  | [] => false
  | ['Z'] => true
  | c :: cs => c.isDigit && zodFracTail cs

/-- End of a zod datetime after the seconds: either a terminal Z, or a dot,
at least one fractional digit, and a terminal Z. -/
def zodFracZ : List Char → Bool
  | ['Z'] => true
  | '.' :: rest =>
    (match rest with
     | c :: _ => c.isDigit
     | [] => false) && zodFracTail rest
  | _ => false

/-- Model of zod z.string().datetime() with default options (no offset,
unconstrained precision): the anchored shape
YYYY-MM-DDTHH:MM:SS(.digits)?Z with each component made of decimal digits.
This is the classic zod v3 datetime regex; it checks digit shape, not
calendar ranges. -/
def isZodDatetime (s : String) : Bool :=
  match s.data with
  | y1 :: y2 :: y3 :: y4 :: '-' :: m1 :: m2 :: '-' :: d1 :: d2 :: 'T' ::
      h1 :: h2 :: ':' :: n1 :: n2 :: ':' :: s1 :: s2 :: rest =>
    y1.isDigit && y2.isDigit && y3.isDigit && y4.isDigit &&
    m1.isDigit && m2.isDigit && d1.isDigit && d2.isDigit &&
    h1.isDigit && h2.isDigit && n1.isDigit && n2.isDigit &&
    s1.isDigit && s2.isDigit && zodFracZ rest
  | _ => false

/-- CanonicalObservationDTO from libs/validation/dto.ts: the single internal
observation shape all source formats are normalized into. -/
structure NormalizedObservation where
  schemaVersion : Nat
  patientId : String
  code : String
  value : JNum
  unit : String
  effectiveDateTime : String
  sourceSystem : String
  ingestHash : String
deriving DecidableEq, Repr

/-- NormalizedObservationSchema from libs/validation/dto.ts: schemaVersion is
the literal 1, the identifier strings are non-empty, value is a number
(zod rejects NaN), effectiveDateTime matches the zod datetime shape, and
ingestHash has at least 10 characters. -/
def zodAcceptsObservation (o : NormalizedObservation) : Bool :=
  o.schemaVersion = 1 &&
  1 ≤ o.patientId.length &&
  1 ≤ o.code.length &&
  o.value ≠ JNum.nan &&
  1 ≤ o.unit.length &&
  isZodDatetime o.effectiveDateTime &&
  1 ≤ o.sourceSystem.length &&
  10 ≤ o.ingestHash.length

/-- NormalizedObservationSchema.parse: returns the object unchanged when it
validates and throws (modelled as Except.error) otherwise. -/
def zodParseObservation (o : NormalizedObservation) : Except String NormalizedObservation :=
  if zodAcceptsObservation o then .ok o else .error "dto-validation-failed"

/-- One coding entry of a FHIR CodeableConcept. -/
structure FhirCoding where
  system : String
  code : String
deriving DecidableEq, Repr

/-- FHIR CodeableConcept as built by the mapper. -/
structure FhirCodeableConcept where
  coding : List FhirCoding
deriving DecidableEq, Repr

/-- FHIR reference as built by the mapper. -/
structure FhirReference where
  reference : String
deriving DecidableEq, Repr

/-- FHIR quantity as built by the mapper. -/
structure FhirQuantity where
  value : JNum
  unit : String
  system : String
  code : String
deriving DecidableEq, Repr

/-- The mapped clinical resource shape produced by dtoToFhirObservation. -/
structure FhirObservation where
  resourceType : String
  status : String
  code : FhirCodeableConcept
  subject : FhirReference
  effectiveDateTime : String
  valueQuantity : FhirQuantity
deriving DecidableEq, Repr

/-- dtoToFhirObservation from libs/mappers/observation.ts: the pure resource
mapper, DTO to fixed-shape FHIR Observation. -/
def dtoToFhirObservation (dto : NormalizedObservation) : FhirObservation :=
  { resourceType := "Observation"
    status := "final"
    code := { coding := [{ system := "http://loinc.org", code := dto.code }] }
    subject := { reference := "Patient/" ++ dto.patientId }
    effectiveDateTime := dto.effectiveDateTime
    valueQuantity :=
      { value := dto.value
        unit := dto.unit
        system := "http://unitsofmeasure.org"
        code := dto.unit } }

/-- Result of the output-representation validator (ok, or a structured error
list), mirroring the return shape of validateObservation in
libs/validation/fhir-ajv.ts. -/
inductive ObsValidation where
  | ok : ObsValidation
  | err : List String → ObsValidation
deriving DecidableEq, Repr

/-- Modelled from the spec: the AJV schema file
libs/contracts/schemas/fhir/Observation.r4.min.json compiled by
validateObservation is not part of the sources, so the minimal profile of
the mapped clinical resource is taken from the specification: a fixed
resource kind, a status, a coding system URI plus code, a subject reference,
and a quantity carrying value and unit (AJV type number accepts every
JavaScript number). -/
def validateObservation (r : FhirObservation) : ObsValidation :=
  if r.resourceType = "Observation" ∧
     1 ≤ r.status.length ∧
     r.code.coding ≠ [] ∧
     r.code.coding.all (fun c => 1 ≤ c.system.length ∧ 1 ≤ c.code.length) ∧
     1 ≤ r.subject.reference.length ∧
     1 ≤ r.valueQuantity.unit.length then
    .ok
  else
    .err ["observation-profile-violation"]

/-- Length of an appended string is the sum of the lengths. -/
theorem strLength_append (a b : String) : (a ++ b).length = a.length + b.length := by
  cases a with
  | mk la =>
    cases b with
    | mk lb =>
      show (String.mk (la ++ lb)).length = (String.mk la).length + (String.mk lb).length
      simp [String.length_mk]

/-- C4: for every CanonicalObservationDTO accepted by the DTO validator
(NormalizedObservationSchema), mapping it with dtoToFhirObservation yields a
resource accepted by the output-representation validator
(validateObservation). -/
theorem C4_dto_maps_to_valid_observation (dto : NormalizedObservation)
    (h : zodAcceptsObservation dto = true) :
    validateObservation (dtoToFhirObservation dto) = .ok := by
  have h' := h
  unfold zodAcceptsObservation at h'
  simp only [Bool.and_eq_true, decide_eq_true_eq] at h'
  obtain ⟨⟨⟨⟨⟨⟨⟨-, hpid⟩, hcode⟩, -⟩, hunit⟩, -⟩, -⟩, -⟩ := h'
  unfold validateObservation dtoToFhirObservation
  dsimp only
  rw [if_pos]
  refine ⟨rfl, by decide, by simp, ?_, ?_, hunit⟩
  · simp only [List.all_cons, List.all_nil, Bool.and_true, decide_eq_true_eq]
    exact ⟨by decide, hcode⟩
  · rw [strLength_append]
    omega

/-- Witness for C4 at a concrete validated DTO. -/
theorem C4_dto_maps_to_valid_observation_witness :
    validateObservation (dtoToFhirObservation
      { schemaVersion := 1
        patientId := "p1"
        code := "718-7"
        value := .num 56 1
        unit := "mmol/L"
        effectiveDateTime := "2025-09-30T10:00:00Z"
        sourceSystem := "csv:labx"
        ingestHash := "sha256:abcd" }) = .ok :=
  C4_dto_maps_to_valid_observation _ (by decide)

deriving instance DecidableEq for Except

/-- Options record passed to both adapters: tenant id plus an optional
source-system label. -/
structure AdapterOpts where
  tenantId : String
  sourceSystem : Option String
deriving DecidableEq, Repr

/-- JS truthiness fallback a || b on strings: the empty string is falsy. -/
def jsOrS (a b : String) : String :=
  if a = "" then b else a

/-- Split a character list at every occurrence of a separator character
(kernel-computable counterpart of String.split with a one-character
separator). -/
def splitOnChar (c : Char) : List Char → List (List Char)
  | [] => [[]]
  | x :: xs =>
    let r := splitOnChar c xs
    if x = c then [] :: r
    else
      match r with
      | h :: t => (x :: h) :: t
      | [] => [[x]]

/-- String split on a one-character separator. -/
def strSplitOnChar (c : Char) (s : String) : List String :=
  (splitOnChar c s.data).map String.mk

/-- Replace every CR LF pair by LF. -/
def crlfToLf : List Char → List Char
  | '\r' :: '\n' :: rest => '\n' :: crlfToLf rest
  | c :: rest => c :: crlfToLf rest
  | [] => []

/-- Whitespace trim at both ends (JS String.prototype.trim on the inputs
this pipeline sees). -/
def strTrim (s : String) : String :=
  String.mk (((s.data.dropWhile Char.isWhitespace).reverse.dropWhile
    Char.isWhitespace).reverse)

/-- Join strings with a separator. -/
def strIntercalate (sep : String) : List String → String
  | [] => ""
  | h :: t => t.foldl (fun a s => a ++ sep ++ s) h

/-- Minimal model of JSON.stringify on a csv-parse row object (string keys
to string values in insertion order, escaping ignored - the pipeline only
hashes the result). -/
def jsonStringifyRow (row : List (String × String)) : String :=
  "\x7b" ++ strIntercalate ","
    (row.map (fun kv => "\"" ++ kv.1 ++ "\":\"" ++ kv.2 ++ "\"")) ++ "\x7d"

/-- Model of csv-parse with columns, trim and skip_empty_lines on the simple
unquoted inputs this pipeline handles: the first non-empty line is the
header, every later non-empty line is split on commas, each field trimmed,
and a line whose field count differs from the header raises the csv-parse
record-length error. -/
def csvParseRows (buf : String) : Except String (List (List (String × String))) :=
  let lines := ((splitOnChar '\n' (crlfToLf buf.data)).map String.mk).filter
    (fun l => l ≠ "")
  match lines with
  | [] => .ok []
  | header :: rest =>
    let hs := (strSplitOnChar ',' header).map strTrim
    rest.mapM (fun line =>
      let fs := (strSplitOnChar ',' line).map strTrim
      if fs.length = hs.length then .ok (hs.zip fs)
      else .error "Invalid Record Length")

/-- Field access row.name on a csv-parse row object. -/
def rowField (row : List (String × String)) (name : String) : Option String :=
  (row.find? (fun kv => kv.1 = name)).map (fun kv => kv.2)

/-- JS String(...) on a possibly undefined value: String(undefined) is the
literal text undefined. -/
def jsStringOf (o : Option String) : String :=
  o.getD "undefined"

/-- JS Number(...) on a possibly undefined value: Number(undefined) is NaN. -/
def jsNumOf (o : Option String) : JNum :=
  match o with
  | none => .nan
  | some s => jsNumber s

/-- parseLabxCsv from libs/adapters/labx.ts: for each data row it builds a
DTO candidate from the named columns, tags the source system, hashes the
raw row, and validates with NormalizedObservationSchema.parse.  The parse
call is not wrapped in any try/catch, so the first row failing validation
throws out of the adapter; this is modelled by the Except error. -/
def parseLabxCsv (buf : String) (opts : AdapterOpts) :
    Except String (List NormalizedObservation) := do
  let rows ← csvParseRows buf
  rows.foldlM (fun acc row => do
    let raw : NormalizedObservation :=
      { schemaVersion := 1
        patientId := jsStringOf (rowField row "patientId")
        code := jsStringOf (rowField row "code")
        value := jsNumOf (rowField row "value")
        unit := jsStringOf (rowField row "unit")
        effectiveDateTime := jsStringOf (rowField row "effectiveDateTime")
        sourceSystem := opts.sourceSystem.getD "csv:labx"
        ingestHash := "sha256:" ++ sha256Hex (jsonStringifyRow row) }
    let dto ← zodParseObservation raw
    pure (acc ++ [dto])) []

/-- C1: evidence against the claim.  On a CSV whose second data row has an
empty unit column, the adapter does not skip that row and continue: the
unchecked NormalizedObservationSchema.parse throws at the bad row, the
whole parse aborts with an error, and neither the first (valid) row nor the
third (valid) row yields a DTO, so the output count cannot equal the number
of rows passing validation. -/
theorem C1_invalid_row_aborts_csv_parse :
    parseLabxCsv
      ("patientId,code,value,unit,effectiveDateTime\n" ++
       "p1,718-7,5.6,mmol/L,2025-09-30T10:00:00Z\n" ++
       "p2,718-7,6.1,,2025-09-30T10:00:00Z\n" ++
       "p3,718-7,7.0,mg/dL,2025-09-30T10:00:00Z")
      { tenantId := "demo", sourceSystem := some "csv:labx" }
      = .error "dto-validation-failed" := by decide

/-- parseHl7v2 segment splitting: CR LF and CR are normalized to LF, the
text is split on LF, and empty segments are dropped (filter(Boolean)). -/
def hl7Segments (buf : String) : List String :=
  ((splitOnChar '\n'
    ((crlfToLf buf.data).map (fun c => if c = '\r' then '\n' else c))).map
      String.mk).filter (fun s => s ≠ "")

/-- Pipe-delimited field access fields[i] of an HL7 segment, with undefined
modelled as the empty string. -/
def nthField (line : String) (i : Nat) : String :=
  ((strSplitOnChar '|' line).get? i).getD ""

/-- Whether a segment line is an OBX segment (fields[0] === OBX). -/
def isObxLine (l : String) : Bool :=
  nthField l 0 = "OBX"

/-- Pass 1 of parseHl7v2: patient id from the first PID segment, third field,
first repetition, first non-empty of the first two components. -/
def hl7PatientId (buf : String) : String :=
  match (hl7Segments buf).find? (fun l => nthField l 0 = "PID") with
  | none => ""
  | some l =>
    let pid3 := nthField l 3
    let rep1 := ((strSplitOnChar '~' pid3).get? 0).getD ""
    let c := strSplitOnChar '^' rep1
    jsOrS ((c.get? 0).getD "") ((c.get? 1).getD "")

/-- OBX-3 coding: first non-empty of the first two components, trimmed. -/
def obxCode (l : String) : String :=
  let c3 := strSplitOnChar '^' (nthField l 3)
  strTrim (jsOrS ((c3.get? 0).getD "") ((c3.get? 1).getD ""))

/-- OBX-5 raw value text, trimmed. -/
def obxValueRaw (l : String) : String :=
  strTrim (nthField l 5)

/-- OBX-6 units: component two, else component one, trimmed, else the
default unit 1. -/
def obxUnit (l : String) : String :=
  let c6 := strSplitOnChar '^' (nthField l 6)
  jsOrS (strTrim (jsOrS ((c6.get? 1).getD "") ((c6.get? 0).getD ""))) "1"

/-- One optional two-digit capture group of the toIso timestamp regex: take
two leading digits, or fall back to the default and leave the input alone
(after one group fails, every later group fails at the same position, so
this greedy stop models the regex exactly). -/
def pairOr (l : List Char) (d : String) : String × List Char :=
  match l with
  | c1 :: c2 :: rest =>
    if c1.isDigit && c2.isDigit then (String.mk [c1, c2], rest) else (d, l)
  | _ => (d, l)

/-- toIso from libs/adapters/hl7/v2.ts: convert a compact HL7 timestamp
matched by (dddd)(dd)?(dd)?(dd)?(dd)?(dd)? into an ISO-8601 UTC string,
missing groups defaulting to 01 (month, day) and 00 (time); an empty or
unmatched input falls back to the current instant, passed in explicitly as
now. -/
def toIsoCore (now : String) : List Char → String
  | c1 :: c2 :: c3 :: c4 :: rest =>
    if c1.isDigit && c2.isDigit && c3.isDigit && c4.isDigit then
      let y := String.mk [c1, c2, c3, c4]
      let p1 := pairOr rest "01"
      let p2 := pairOr p1.2 "01"
      let p3 := pairOr p2.2 "00"
      let p4 := pairOr p3.2 "00"
      let p5 := pairOr p4.2 "00"
      y ++ "-" ++ p1.1 ++ "-" ++ p2.1 ++ "T" ++ p3.1 ++ ":" ++ p4.1 ++
        ":" ++ p5.1 ++ "Z"
    else now
  | _ => now

/-- toIso entry point: empty input (JS falsiness of the field) falls back to
now, otherwise the character list is matched. -/
def toIso (now ts : String) : String :=
  if ts = "" then now else toIsoCore now ts.data

/-- DTO candidate built from one OBX segment by parseHl7v2, with the
defaults unknown / unknown / 1 for missing patient id, code and unit, and a
NaN value when OBX-5 is not a finite number. -/
def obxCandidate (pid : String) (opts : AdapterOpts) (now : String)
    (l : String) : NormalizedObservation :=
  let valueNum := jsNumber (obxValueRaw l)
  { schemaVersion := 1
    patientId := jsOrS pid "unknown"
    code := jsOrS (obxCode l) "unknown"
    value := if valueNum.isFiniteNum then valueNum else .nan
    unit := obxUnit l
    effectiveDateTime := toIso now (strTrim (nthField l 14))
    sourceSystem := opts.sourceSystem.getD "hl7v2:file"
    ingestHash := "sha256:" ++ sha256Hex l }

/-- Per-OBX step of parseHl7v2: validate the candidate and keep it, or skip
the segment (the try/catch around NormalizedObservationSchema.parse). -/
def obxDto? (pid : String) (opts : AdapterOpts) (now : String) (l : String) :
    Option NormalizedObservation :=
  match zodParseObservation (obxCandidate pid opts now l) with
  | .ok dto => some dto
  | .error _ => none

/-- parseHl7v2 from libs/adapters/hl7/v2.ts: split into segments, capture the
patient id from the first PID segment, then turn every OBX segment into at
most one DTO, skipping segments whose candidate fails validation.  Every
throw site is caught inside the loop, so the adapter is total (it never
throws), modelled by the plain List return type. -/
def parseHl7v2 (buf : String) (opts : AdapterOpts) (now : String) :
    List NormalizedObservation :=
  let segs := hl7Segments buf
  let pid := hl7PatientId buf
  segs.foldl (fun out l =>
    if isObxLine l then
      match obxDto? pid opts now l with
      | some dto => out ++ [dto]
      | none => out
    else out) []

/-- The mk constructor is inverse to the data projection. -/
theorem strMk_data (s : String) : String.mk s.data = s := by
  cases s with
  | mk l => rfl

/-- A string distinct from the empty string has positive length. -/
theorem strNonempty_length (s : String) (h : s ≠ "") : 1 ≤ s.length := by
  cases s with
  | mk l =>
    cases l with
    | nil => exact absurd (by decide) h
    | cons c t => simp [String.length_mk]

/-- The JS truthiness fallback with a non-empty default is non-empty. -/
theorem jsOrS_length (a d : String) (hd : d ≠ "") : 1 ≤ (jsOrS a d).length := by
  unfold jsOrS
  by_cases h : a = ""
  · rw [if_pos h]
    exact strNonempty_length d hd
  · rw [if_neg h]
    exact strNonempty_length a h

/-- The modelled sha256 hex digest always has 64 characters. -/
theorem sha256Hex_length (s : String) : (sha256Hex s).length = 64 := by
  unfold sha256Hex
  simp [String.length_mk]

/-- Every ingestHash written by the adapters has at least 10 characters. -/
theorem ingestHash_length (x : String) :
    10 ≤ ("sha256:" ++ sha256Hex x).length := by
  rw [strLength_append, sha256Hex_length]
  have h7 : ("sha256:" : String).length = 7 := by decide
  omega

/-- pairOr keeps the two-character all-digit shape of its default. -/
theorem pairOr_shape (l : List Char) (d : String)
    (hd : ∃ a b, d.data = [a, b] ∧ a.isDigit = true ∧ b.isDigit = true) :
    ∃ a b, (pairOr l d).1.data = [a, b] ∧ a.isDigit = true ∧ b.isDigit = true := by
  cases l with
  | nil => simpa [pairOr] using hd
  | cons c1 t =>
    cases t with
    | nil => simpa [pairOr] using hd
    | cons c2 r =>
      by_cases h : (c1.isDigit && c2.isDigit) = true
      · simp only [pairOr]
        rw [if_pos h]
        rcases Bool.and_eq_true_iff.mp h with ⟨h1, h2⟩
        exact ⟨c1, c2, rfl, h1, h2⟩
      · simp only [pairOr]
        rw [if_neg h]
        exact hd

/-- Output of toIso always satisfies the zod datetime shape, provided the
fallback now string (a real toISOString output) does. -/
theorem toIsoCore_zod (now : String) (l : List Char)
    (hnow : isZodDatetime now = true) :
    isZodDatetime (toIsoCore now l) = true := by
  match l with
  | [] => exact hnow
  | [c1] => exact hnow
  | [c1, c2] => exact hnow
  | [c1, c2, c3] => exact hnow
  | c1 :: c2 :: c3 :: c4 :: rest =>
    by_cases hd : (c1.isDigit && c2.isDigit && c3.isDigit && c4.isDigit) = true
    · simp only [toIsoCore]
      rw [if_pos hd]
      simp only [Bool.and_eq_true] at hd
      obtain ⟨⟨⟨h1, h2⟩, h3⟩, h4⟩ := hd
      obtain ⟨m1, m2, hm, hm1, hm2⟩ :=
        pairOr_shape rest "01" ⟨'0', '1', rfl, rfl, rfl⟩
      obtain ⟨d1, d2, hdd, hd1, hd2⟩ :=
        pairOr_shape (pairOr rest "01").2 "01" ⟨'0', '1', rfl, rfl, rfl⟩
      obtain ⟨e1, e2, he, he1, he2⟩ :=
        pairOr_shape (pairOr (pairOr rest "01").2 "01").2 "00"
          ⟨'0', '0', rfl, rfl, rfl⟩
      obtain ⟨f1, f2, hf, hf1, hf2⟩ :=
        pairOr_shape (pairOr (pairOr (pairOr rest "01").2 "01").2 "00").2 "00"
          ⟨'0', '0', rfl, rfl, rfl⟩
      obtain ⟨g1, g2, hg, hg1, hg2⟩ :=
        pairOr_shape (pairOr (pairOr (pairOr (pairOr rest "01").2 "01").2
          "00").2 "00").2 "00" ⟨'0', '0', rfl, rfl, rfl⟩
      unfold isZodDatetime
      rw [String.data_append, String.data_append, String.data_append,
        String.data_append, String.data_append, String.data_append,
        String.data_append, String.data_append, String.data_append,
        String.data_append, String.data_append]
      rw [hm, hdd, he, hf, hg]
      simp [h1, h2, h3, h4, hm1, hm2, hd1, hd2, he1, he2, hf1, hf2,
        hg1, hg2, zodFracZ]
    · simp only [toIsoCore]
      rw [if_neg hd]
      exact hnow

/-- Output of toIso always satisfies the zod datetime shape, provided the
fallback now string (a real toISOString output) does. -/
theorem toIso_zod (now ts : String) (hnow : isZodDatetime now = true) :
    isZodDatetime (toIso now ts) = true := by
  unfold toIso
  by_cases h0 : ts = ""
  · rw [if_pos h0]
    exact hnow
  · rw [if_neg h0]
    exact toIsoCore_zod now ts.data hnow

/-- The length of a string is the length of its character list. -/
theorem strLength_data (s : String) : s.data.length = s.length := rfl

/-- A finite JS number is not NaN. -/
theorem finite_ne_nan (v : JNum) (h : v.isFiniteNum = true) : v ≠ JNum.nan := by
  cases v <;> simp_all [JNum.isFiniteNum]

/-- The OBX candidate passes the DTO validator exactly when its fifth field
parses as a finite number: the unknown / unknown / 1 defaults, the toIso
timestamp and the sha256 ingest hash satisfy every other constraint. -/
theorem zodAccepts_obxCandidate (pid : String) (opts : AdapterOpts)
    (now l : String) (hnow : isZodDatetime now = true)
    (hsrc : 1 ≤ (opts.sourceSystem.getD "hl7v2:file").length) :
    zodAcceptsObservation (obxCandidate pid opts now l)
      = (jsNumber (obxValueRaw l)).isFiniteNum := by
  have hpid : 1 ≤ (jsOrS pid "unknown").length := jsOrS_length _ _ (by decide)
  have hcode : 1 ≤ (jsOrS (obxCode l) "unknown").length :=
    jsOrS_length _ _ (by decide)
  have hunit : 1 ≤ (obxUnit l).length := by
    unfold obxUnit
    exact jsOrS_length _ _ (by decide)
  have hdt := toIso_zod now (strTrim (nthField l 14)) hnow
  have hhash : 10 ≤ ("sha256:" : String).length + (sha256Hex l).length := by
    rw [sha256Hex_length]
    decide
  unfold zodAcceptsObservation obxCandidate
  dsimp only
  cases hv : (jsNumber (obxValueRaw l)).isFiniteNum with
  | true =>
    have hne := finite_ne_nan _ hv
    simp [hv, hpid, hcode, hunit, hdt, hsrc, hhash, hne]
  | false =>
    simp [hv]

/-- obxDto? emits the candidate exactly on finite OBX-5 values. -/
theorem obxDto?_char (pid : String) (opts : AdapterOpts) (now l : String)
    (hnow : isZodDatetime now = true)
    (hsrc : 1 ≤ (opts.sourceSystem.getD "hl7v2:file").length) :
    obxDto? pid opts now l
      = if (jsNumber (obxValueRaw l)).isFiniteNum = true
        then some (obxCandidate pid opts now l) else none := by
  unfold obxDto? zodParseObservation
  rw [zodAccepts_obxCandidate pid opts now l hnow hsrc]
  cases hv : (jsNumber (obxValueRaw l)).isFiniteNum <;> simp [hv]

/-- The parseHl7v2 fold is the filterMap of obxDto? over the OBX segments. -/
theorem parseHl7v2_foldl_char (pid : String) (opts : AdapterOpts) (now : String)
    (segs : List String) :
    ∀ acc : List NormalizedObservation,
      segs.foldl (fun out l =>
        if isObxLine l then
          match obxDto? pid opts now l with
          | some dto => out ++ [dto]
          | none => out
        else out) acc
      = acc ++ (segs.filter isObxLine).filterMap (obxDto? pid opts now) := by
  induction segs with
  | nil =>
    intro acc
    simp
  | cons h t ih =>
    intro acc
    simp only [List.foldl_cons, List.filter_cons]
    by_cases hx : isObxLine h = true
    · rw [if_pos hx]
      cases hdto : obxDto? pid opts now h with
      | some dto =>
        simp only [hdto, hx, if_true, List.filterMap_cons, ih,
          List.append_assoc, List.singleton_append]
      | none =>
        simp only [hdto, hx, if_true, List.filterMap_cons, ih]
    · rw [if_neg hx, if_neg hx]
      exact ih acc

/-- Length of filterMap after filter, counted by the emission test. -/
theorem filterMap_if_length {α β : Type} (f : α → Option β) (p q : α → Bool)
    (hf : ∀ a, p a = true → (f a).isSome = q a) (s : List α) :
    ((s.filter p).filterMap f).length
      = (s.filter (fun a => p a && q a)).length := by
  induction s with
  | nil => simp
  | cons h t ih =>
    simp only [List.filter_cons]
    by_cases hp : p h = true
    · cases hq : q h with
      | false =>
        have hsome : (f h).isSome = false := by rw [hf h hp, hq]
        have hnone : f h = none := by
          cases hfh : f h
          · rfl
          · rw [hfh] at hsome
            simp at hsome
        simp [hp, hq, hnone, ih]
      | true =>
        have hsome : (f h).isSome = true := by rw [hf h hp, hq]
        obtain ⟨b, hb⟩ := Option.isSome_iff_exists.mp hsome
        simp [hp, hq, hb, ih]
    · simp [hp, ih]

/-- parseHl7v2 is the filterMap of the per-OBX step over the OBX segments. -/
theorem parseHl7v2_char (buf : String) (opts : AdapterOpts) (now : String) :
    parseHl7v2 buf opts now
      = ((hl7Segments buf).filter isObxLine).filterMap
          (obxDto? (hl7PatientId buf) opts now) := by
  unfold parseHl7v2
  rw [parseHl7v2_foldl_char]
  simp

/-- C5: for every HL7 v2 input buffer, parseHl7v2 emits exactly one DTO per
OBX segment whose fifth field parses as a finite number (the output length
equals the count of such segments, and the candidate DTO of each such
segment is in the output), an OBX segment with a non-numeric value yields no
DTO, and - the adapter being a total function whose only throw site is
caught per segment - no segment ever prevents its siblings from being
parsed.  The hypotheses state that the process clock renders a valid ISO
instant and that the source-system label is non-empty, as at both call
sites. -/
theorem C5_hl7_finite_value_emission (buf : String) (opts : AdapterOpts)
    (now : String) (hnow : isZodDatetime now = true)
    (hsrc : 1 ≤ (opts.sourceSystem.getD "hl7v2:file").length) :
    (parseHl7v2 buf opts now).length
      = ((hl7Segments buf).filter
          (fun l => isObxLine l && (jsNumber (obxValueRaw l)).isFiniteNum)).length
    ∧ ∀ l ∈ hl7Segments buf, isObxLine l = true →
        ((jsNumber (obxValueRaw l)).isFiniteNum = true →
          obxCandidate (hl7PatientId buf) opts now l ∈ parseHl7v2 buf opts now)
        ∧ ((jsNumber (obxValueRaw l)).isFiniteNum = false →
          obxDto? (hl7PatientId buf) opts now l = none) := by
  constructor
  · rw [parseHl7v2_char]
    exact filterMap_if_length _ _ _
      (fun a _ => by
        rw [obxDto?_char _ _ _ _ hnow hsrc]
        cases hv : (jsNumber (obxValueRaw a)).isFiniteNum <;> simp [hv]) _
  · intro l hmem hobx
    constructor
    · intro hfin
      rw [parseHl7v2_char]
      exact List.mem_filterMap.mpr
        ⟨l, List.mem_filter.mpr ⟨hmem, hobx⟩,
         by rw [obxDto?_char _ _ _ _ hnow hsrc, if_pos hfin]⟩
    · intro hfin
      rw [obxDto?_char _ _ _ _ hnow hsrc]
      simp [hfin]

/-- The HL7 sample message of the adapter test suite, with one OBX segment
replaced so that its value field is non-numeric text. -/
def hl7WitnessBuf : String :=
  "MSH|^~\\&|LAB|HOSP|ETL|PIPE|20250930101500||ORU^R01|MSGID1234|P|2.5" ++
  "\r" ++ "PID|1||12345^^^HOSP^MR||DOE^JOHN" ++
  "\r" ++ "OBX|1|NM|718-7^Glucose^LN||5.6|mmol/L|3.5-7.8|N|||F|||20250930100000" ++
  "\r" ++ "OBX|2|ST|x1^Note^LN||elevated|||N|||F|||20250930100000"

/-- Witness for C5 at the concrete sample buffer: one finite-valued OBX and
one textual OBX give exactly one DTO, and the textual segment yields none. -/
theorem C5_hl7_finite_value_emission_witness :
    (parseHl7v2 hl7WitnessBuf
        { tenantId := "demo", sourceSystem := some "hl7v2:file" }
        "2025-01-01T00:00:00.000Z").length
      = ((hl7Segments hl7WitnessBuf).filter
          (fun l => isObxLine l && (jsNumber (obxValueRaw l)).isFiniteNum)).length :=
  (C5_hl7_finite_value_emission hl7WitnessBuf
    { tenantId := "demo", sourceSystem := some "hl7v2:file" }
    "2025-01-01T00:00:00.000Z" (by decide) (by decide)).1

/-- C10: for every OBX segment with a finite numeric value, the adapter
substitutes defaults instead of dropping the segment when identifying
fields are missing: patientId unknown when no PID segment supplied an id,
code unknown when OBX-3 yields no code, unit 1 when OBX-6 is empty, and the
resulting DTO still passes the non-empty-field validation and is emitted. -/
theorem C10_hl7_defaults (buf : String) (opts : AdapterOpts) (now l : String)
    (hnow : isZodDatetime now = true)
    (hsrc : 1 ≤ (opts.sourceSystem.getD "hl7v2:file").length)
    (hmem : l ∈ hl7Segments buf) (hobx : isObxLine l = true)
    (hfin : (jsNumber (obxValueRaw l)).isFiniteNum = true) :
    obxCandidate (hl7PatientId buf) opts now l ∈ parseHl7v2 buf opts now
    ∧ (hl7PatientId buf = "" →
        (obxCandidate (hl7PatientId buf) opts now l).patientId = "unknown")
    ∧ (obxCode l = "" →
        (obxCandidate (hl7PatientId buf) opts now l).code = "unknown")
    ∧ (nthField l 6 = "" →
        (obxCandidate (hl7PatientId buf) opts now l).unit = "1")
    ∧ zodAcceptsObservation (obxCandidate (hl7PatientId buf) opts now l) = true := by
  refine ⟨?_, ?_, ?_, ?_, ?_⟩
  · rw [parseHl7v2_char]
    exact List.mem_filterMap.mpr
      ⟨l, List.mem_filter.mpr ⟨hmem, hobx⟩,
       by rw [obxDto?_char _ _ _ _ hnow hsrc, if_pos hfin]⟩
  · intro hp
    unfold obxCandidate
    dsimp only
    rw [hp]
    rfl
  · intro hc
    unfold obxCandidate
    dsimp only
    rw [hc]
    rfl
  · intro h6
    unfold obxCandidate obxUnit
    dsimp only
    rw [h6]
    rfl
  · rw [zodAccepts_obxCandidate _ _ _ _ hnow hsrc]
    exact hfin

/-- Witness for C10 at a concrete buffer with no PID segment and an OBX with
empty code and unit fields: the DTO is emitted with every default. -/
theorem C10_hl7_defaults_witness :
    obxCandidate (hl7PatientId "OBX|1|NM|||7||||||F")
        { tenantId := "demo", sourceSystem := some "hl7v2:file" }
        "2025-01-01T00:00:00.000Z" "OBX|1|NM|||7||||||F"
      ∈ parseHl7v2 "OBX|1|NM|||7||||||F"
        { tenantId := "demo", sourceSystem := some "hl7v2:file" }
        "2025-01-01T00:00:00.000Z"
    ∧ (obxCandidate (hl7PatientId "OBX|1|NM|||7||||||F")
        { tenantId := "demo", sourceSystem := some "hl7v2:file" }
        "2025-01-01T00:00:00.000Z" "OBX|1|NM|||7||||||F").patientId = "unknown" :=
  have h := C10_hl7_defaults "OBX|1|NM|||7||||||F"
    { tenantId := "demo", sourceSystem := some "hl7v2:file" }
    "2025-01-01T00:00:00.000Z" "OBX|1|NM|||7||||||F"
    (by decide) (by decide) (by decide) (by decide) (by decide)
  ⟨h.1, h.2.1 (by decide)⟩

/-- A list of length four is an explicit four-element list. -/
theorem listLen4 {α : Type} (l : List α) (h : l.length = 4) :
    ∃ a b c d, l = [a, b, c, d] := by
  match l with
  | [a, b, c, d] => exact ⟨a, b, c, d, rfl⟩
  | [] => simp at h
  | [_] => simp at h
  | [_, _] => simp at h
  | [_, _, _] => simp at h
  | _ :: _ :: _ :: _ :: _ :: t =>
    simp only [List.length_cons] at h
    omega

/-- pairOr on the empty list yields the default. -/
theorem pairOr_nil (d : String) : pairOr [] d = (d, []) := rfl

/-- A two-character string is not empty. -/
theorem strNe_empty_of_len2 (p : String) (h : p.length = 2) : p ≠ "" := by
  intro he
  subst he
  exact absurd h (by decide)

/-- pairOr captures a leading two-digit string exactly. -/
theorem pairOr_present (p : String) (R : List Char) (d : String)
    (hl : p.length = 2) (hd : p.data.all Char.isDigit = true) :
    pairOr (p.data ++ R) d = (p, R) := by
  have h2 : p.data.length = 2 := by rw [strLength_data]; exact hl
  obtain ⟨a, b, hab⟩ := List.length_eq_two.mp h2
  rw [hab] at hd
  simp only [List.all_cons, List.all_nil, Bool.and_true, Bool.and_eq_true] at hd
  obtain ⟨ha, hb⟩ := hd
  rw [hab]
  simp only [List.cons_append, List.nil_append, pairOr]
  rw [if_pos (by simp [ha, hb])]
  have hmk : String.mk [a, b] = p := by rw [← hab]
  rw [hmk]

/-- The JS fallback keeps a non-empty string. -/
theorem jsOrS_of_ne (a d : String) (h : a ≠ "") : jsOrS a d = a := by
  unfold jsOrS
  rw [if_neg h]

/-- The JS fallback replaces the empty string by the default. -/
theorem jsOrS_empty (d : String) : jsOrS "" d = d := by
  unfold jsOrS
  rw [if_pos rfl]

/-- C7: the fourteenth-field compact timestamp of the form
YYYY[MM[DD[HH[MM[SS]]]]] (a four-digit year followed by up to five two-digit
groups, trailing groups possibly absent) is converted by toIso to the
ISO-8601 UTC string in which each absent group defaults to the start of its
period, month and day to 01 and hour, minute and second to 00; and the DTO
candidate of every OBX segment carries exactly toIso of its trimmed
fourteenth field. -/
theorem C7_compact_timestamp_defaults
    (now y p1 p2 p3 p4 p5 : String)
    (hy : y.length = 4 ∧ y.data.all Char.isDigit = true)
    (h1 : p1.length = 2 ∧ p1.data.all Char.isDigit = true ∨ p1 = "")
    (h2 : p2.length = 2 ∧ p2.data.all Char.isDigit = true ∨ p2 = "")
    (h3 : p3.length = 2 ∧ p3.data.all Char.isDigit = true ∨ p3 = "")
    (h4 : p4.length = 2 ∧ p4.data.all Char.isDigit = true ∨ p4 = "")
    (h5 : p5.length = 2 ∧ p5.data.all Char.isDigit = true ∨ p5 = "")
    (hc2 : p1 = "" → p2 = "") (hc3 : p2 = "" → p3 = "")
    (hc4 : p3 = "" → p4 = "") (hc5 : p4 = "" → p5 = "") :
    toIso now (y ++ p1 ++ p2 ++ p3 ++ p4 ++ p5)
      = y ++ "-" ++ jsOrS p1 "01" ++ "-" ++ jsOrS p2 "01" ++ "T" ++
        jsOrS p3 "00" ++ ":" ++ jsOrS p4 "00" ++ ":" ++ jsOrS p5 "00" ++ "Z"
    ∧ ∀ pid opts nw l,
        (obxCandidate pid opts nw l).effectiveDateTime
          = toIso nw (strTrim (nthField l 14)) := by
  obtain ⟨hylen, hydig⟩ := hy
  obtain ⟨a, b, c, d, habcd⟩ := listLen4 y.data (by rw [strLength_data]; exact hylen)
  have hya : y = String.mk [a, b, c, d] := by rw [← habcd, strMk_data]
  have hdig4 : a.isDigit = true ∧ b.isDigit = true ∧ c.isDigit = true ∧
      d.isDigit = true := by
    rw [habcd] at hydig
    simpa using hydig
  obtain ⟨hda, hdb, hdc, hdd⟩ := hdig4
  have hED : ("" : String).data = ([] : List Char) := by decide
  refine ⟨?_, fun pid opts nw l => rfl⟩
  have hdata : (y ++ p1 ++ p2 ++ p3 ++ p4 ++ p5).data
      = a :: b :: c :: d ::
        (p1.data ++ (p2.data ++ (p3.data ++ (p4.data ++ p5.data)))) := by
    simp [String.data_append, habcd]
  have hne : (y ++ p1 ++ p2 ++ p3 ++ p4 ++ p5) ≠ "" := by
    intro he
    have hEq : (y ++ p1 ++ p2 ++ p3 ++ p4 ++ p5).data = [] := by rw [he]
    rw [hdata] at hEq
    simp at hEq
  unfold toIso
  rw [if_neg hne, hdata]
  simp only [toIsoCore]
  rw [if_pos (by simp [hda, hdb, hdc, hdd])]
  rcases h1 with ⟨h1l, h1d⟩ | h1e
  · rw [pairOr_present p1 _ "01" h1l h1d]
    have h1ne := strNe_empty_of_len2 p1 h1l
    rcases h2 with ⟨h2l, h2d⟩ | h2e
    · rw [pairOr_present p2 _ "01" h2l h2d]
      have h2ne := strNe_empty_of_len2 p2 h2l
      rcases h3 with ⟨h3l, h3d⟩ | h3e
      · rw [pairOr_present p3 _ "00" h3l h3d]
        have h3ne := strNe_empty_of_len2 p3 h3l
        rcases h4 with ⟨h4l, h4d⟩ | h4e
        · rw [pairOr_present p4 _ "00" h4l h4d]
          have h4ne := strNe_empty_of_len2 p4 h4l
          rcases h5 with ⟨h5l, h5d⟩ | h5e
          · have h5ne := strNe_empty_of_len2 p5 h5l
            rw [show p5.data = p5.data ++ ([] : List Char) from
              (List.append_nil _).symm]
            rw [pairOr_present p5 [] "00" h5l h5d]
            simp [jsOrS, hya, h1ne, h2ne, h3ne, h4ne, h5ne]
          · subst h5e
            simp [jsOrS, hya, h1ne, h2ne, h3ne, h4ne, pairOr_nil, hED]
        · have h5e := hc5 h4e
          subst h4e
          subst h5e
          simp [jsOrS, hya, h1ne, h2ne, h3ne, pairOr_nil, hED]
      · have h4e := hc4 h3e
        have h5e := hc5 h4e
        subst h3e
        subst h4e
        subst h5e
        simp [jsOrS, hya, h1ne, h2ne, pairOr_nil, hED]
    · have h3e := hc3 h2e
      have h4e := hc4 h3e
      have h5e := hc5 h4e
      subst h2e
      subst h3e
      subst h4e
      subst h5e
      simp [jsOrS, hya, h1ne, pairOr_nil, hED]
  · have h2e := hc2 h1e
    have h3e := hc3 h2e
    have h4e := hc4 h3e
    have h5e := hc5 h4e
    subst h1e
    subst h2e
    subst h3e
    subst h4e
    subst h5e
    simp [jsOrS, hya, pairOr_nil, hED]

/-- Witness for C7 at the two spec examples: the bare year 2025 and the
ten-digit form 2025093010. -/
theorem C7_compact_timestamp_defaults_witness :
    toIso "2025-01-01T00:00:00.000Z" ("2025" ++ "" ++ "" ++ "" ++ "" ++ "")
      = "2025" ++ "-" ++ jsOrS "" "01" ++ "-" ++ jsOrS "" "01" ++ "T" ++
        jsOrS "" "00" ++ ":" ++ jsOrS "" "00" ++ ":" ++ jsOrS "" "00" ++ "Z"
    ∧ toIso "2025-01-01T00:00:00.000Z" ("2025" ++ "09" ++ "30" ++ "10" ++ "" ++ "")
      = "2025" ++ "-" ++ jsOrS "09" "01" ++ "-" ++ jsOrS "30" "01" ++ "T" ++
        jsOrS "10" "00" ++ ":" ++ jsOrS "" "00" ++ ":" ++ jsOrS "" "00" ++ "Z" :=
  ⟨(C7_compact_timestamp_defaults "2025-01-01T00:00:00.000Z" "2025" "" "" "" "" ""
      (by decide) (by decide) (by decide) (by decide) (by decide) (by decide)
      (fun _ => rfl) (fun _ => rfl) (fun _ => rfl) (fun _ => rfl)).1,
   (C7_compact_timestamp_defaults "2025-01-01T00:00:00.000Z" "2025" "09" "30" "10" "" ""
      (by decide) (by decide) (by decide) (by decide) (by decide) (by decide)
      (by intro h; exact absurd h (by decide)) (by intro h; exact absurd h (by decide))
      (by intro h; exact absurd h (by decide)) (fun _ => rfl)).1⟩

/-- Payload handed to the audit notification (the pipeline builds small
literal objects; only the fields the callers set are modelled). -/
structure AuditPayload where
  atype : String
  tenantId : String
  traceId : String
  info : String
deriving DecidableEq, Repr

/-- The body of auditFireAndForget before its catch: return immediately when
no audit function ARN is configured, otherwise perform the underlying
fire-and-forget invocation, which may fail. -/
def auditAttempt (arn : String) (invoke : AuditPayload → Except String Unit)
    (p : AuditPayload) : Except String Unit :=
  if arn = "" then .ok () else invoke p

/-- auditFireAndForget from libs/obs/audit.ts: the whole invocation is
wrapped in try/catch, a failure is logged with console.warn and swallowed.
The plain List return type (the warning lines) encodes that the function
never throws. -/
def auditFireAndForget (arn : String)
    (invoke : AuditPayload → Except String Unit) (p : AuditPayload) :
    List String :=
  match auditAttempt arn invoke p with
  | .ok _ => []
  | .error e => ["audit-invoke-failed " ++ e]

/-- Whether a pattern occurs as a contiguous run inside a character list. -/
def listInfix (pat : List Char) : List Char → Bool
  | [] => pat.isEmpty
  | c :: rest => pat.isPrefixOf (c :: rest) || listInfix pat rest

/-- Substring containment test (JS String.prototype.includes). -/
def strContains (s pat : String) : Bool :=
  listInfix pat.data s.data

/-- Suffix test (JS String.prototype.endsWith). -/
def strEndsWith (s tailp : String) : Bool :=
  tailp.data.reverse.isPrefixOf s.data.reverse

/-- Lowercasing (JS String.prototype.toLowerCase on ASCII keys). -/
def strToLower (s : String) : String :=
  String.mk (s.data.map Char.toLower)

/-- Metadata of an ingest.raw.v1 envelope.  Optional JS fields are plain
strings with the empty string standing for undefined. -/
structure IngestMeta where
  tenantId : String
  source : String
  idempotencyKey : String
  contentType : String := ""
  s3bucket : String := ""
  s3key : String := ""
deriving DecidableEq, Repr

/-- Payload of an ingest.raw.v1 envelope: either inline clinical JSON fields
or a blob reference with a content type. -/
structure IngestPayload where
  studyInstanceUID : String := ""
  patientId : String := ""
  modality : String := ""
  contentType : String := ""
  s3bucket : String := ""
  s3key : String := ""
deriving DecidableEq, Repr

/-- A raw envelope as seen by the orchestrator. -/
structure IngestRawMsg where
  metadata : IngestMeta
  payload : IngestPayload
deriving DecidableEq, Repr

/-- Modelled from the spec: the JSON schema file
libs/contracts/src/schemas/ingest.raw.v1.json compiled by validate is not
part of the sources, so the outcome of JSON.parse plus raw-envelope schema
validation on a message body is abstracted: malformed stands for any body
on which JSON.parse or validate throws, valid carries the structurally
well-formed envelope. -/
inductive IngestBody where
  | malformed : IngestBody
  | valid : IngestRawMsg → IngestBody
deriving DecidableEq, Repr

/-- One SQS record of a normalization batch. -/
structure SqsRecord where
  messageId : String
  body : IngestBody
deriving DecidableEq, Repr

/-- isCsvIngest from services/normalize: content type contains text/csv or
the blob key ends in .csv (metadata content type first, payload key first,
matching the JS truthiness fallbacks). -/
def isCsvIngest (msg : IngestRawMsg) : Bool :=
  let ct := jsOrS msg.metadata.contentType msg.payload.contentType
  let key := jsOrS msg.payload.s3key msg.metadata.s3key
  strContains ct "text/csv" || strEndsWith key ".csv"

/-- isHl7Ingest from services/normalize: blob key ends in .hl7 (lowercased)
or the content type mentions x-hl7, hl7 or text/plain. -/
def isHl7Ingest (msg : IngestRawMsg) : Bool :=
  let ct := jsOrS msg.metadata.contentType msg.payload.contentType
  let key := jsOrS msg.payload.s3key msg.metadata.s3key
  strEndsWith (strToLower key) ".hl7" ||
    (strContains ct "x-hl7" || (strContains ct "hl7" || strContains ct "text/plain"))

/-- Metadata of an etl.normalized.v1 envelope. -/
structure NormMeta where
  tenantId : String
  source : String
  normalizedAt : String
  idempotencyKey : String
  traceId : String
deriving DecidableEq, Repr

/-- Attributes stored with a normalized event: the observation paths store
the DTO together with its FHIR mapping, the generic JSON path spreads the
raw payload. -/
inductive Attrs where
  | obs : NormalizedObservation → FhirObservation → Attrs
  | generic : IngestPayload → Attrs
deriving DecidableEq, Repr

/-- Data section of an etl.normalized.v1 envelope. -/
structure NormData where
  entityType : String
  entityId : String
  patientId : String
  modality : String
  attributes : Attrs
deriving DecidableEq, Repr

/-- An etl.normalized.v1 envelope. -/
structure EtlNormalizedV1 where
  schema : String
  metadata : NormMeta
  data : NormData
deriving DecidableEq, Repr

/-- buildNormalizedEventFromDto from services/normalize: entityType is
always observation, entityId concatenates patientId, code and
effectiveDateTime with colons, attributes carry the DTO and its FHIR
mapping; the wall clock and the fresh trace id are passed explicitly. -/
def buildNormalizedEventFromDto (dto : NormalizedObservation)
    (meta : IngestMeta) (now traceId : String) : EtlNormalizedV1 :=
  { schema := "etl.normalized.v1"
    metadata :=
      { tenantId := meta.tenantId
        source := meta.source
        normalizedAt := now
        idempotencyKey := meta.idempotencyKey
        traceId := traceId }
    data :=
      { entityType := "observation"
        entityId := dto.patientId ++ ":" ++ dto.code ++ ":" ++ dto.effectiveDateTime
        patientId := dto.patientId
        modality := ""
        attributes := .obs dto (dtoToFhirObservation dto) } }

/-- Ambient effects of one orchestrator invocation: the blob store, the wall
clock, the trace-id source, and the audit environment (configured ARN plus
the underlying invocation, which may fail). -/
structure OrchestratorEnv where
  s3get : String → String → Option String
  now : String
  traceId : String
  auditArn : String
  auditInvoke : AuditPayload → Except String Unit

/-- Per-item outcome of the orchestrator: the normalized events emitted
downstream, the audit warning log, and whether the item is reported as a
batch-item failure. -/
structure ItemResult where
  events : List EtlNormalizedV1
  auditLog : List String
  failed : Bool
deriving DecidableEq, Repr

/-- Body of the per-DTO loop shared by the CSV and HL7 branches: re-assert
the DTO schema, map to FHIR, validate the resource, and on success emit the
normalized event and fire the audit notification; a failure at any step
skips only that DTO. -/
def procStep (env : OrchestratorEnv) (meta : IngestMeta)
    (acc : List EtlNormalizedV1 × List String) (dto : NormalizedObservation) :
    List EtlNormalizedV1 × List String :=
  match zodParseObservation dto with
  | .error _ => acc
  | .ok dto2 =>
    match validateObservation (dtoToFhirObservation dto2) with
    | .err _ => acc
    | .ok =>
      let normalized := buildNormalizedEventFromDto dto2 meta env.now env.traceId
      let lg := auditFireAndForget env.auditArn env.auditInvoke
        { atype := "etl.normalized.v1"
          tenantId := normalized.metadata.tenantId
          traceId := normalized.metadata.traceId
          info := normalized.data.entityId }
      (acc.1 ++ [normalized], acc.2 ++ lg)

/-- The per-DTO loop over the adapter output. -/
def processDtos (env : OrchestratorEnv) (meta : IngestMeta)
    (dtos : List NormalizedObservation) :
    List EtlNormalizedV1 × List String :=
  dtos.foldl (procStep env meta) ([], [])

/-- Per-item step of services/normalize main: envelope validation failure
fails the item, the CSV branch fetches and parses the blob (an adapter
throw fails the item), the HL7 branch does the same with the total HL7
adapter, and every other message takes the generic JSON path; the generic
normalized-envelope validation always succeeds on the structurally typed
value (its JSON schema file is not part of the sources). -/
def processItem (env : OrchestratorEnv) (rec : SqsRecord) : ItemResult :=
  match rec.body with
  | .malformed => { events := [], auditLog := [], failed := true }
  | .valid msg =>
    if isCsvIngest msg then
      let bucket := jsOrS msg.payload.s3bucket msg.metadata.s3bucket
      let key := jsOrS msg.payload.s3key msg.metadata.s3key
      if bucket = "" ∨ key = "" then { events := [], auditLog := [], failed := true }
      else
        match env.s3get bucket key with
        | none => { events := [], auditLog := [], failed := true }
        | some buf =>
          match parseLabxCsv buf
              { tenantId := msg.metadata.tenantId, sourceSystem := some "csv:labx" } with
          | .error _ => { events := [], auditLog := [], failed := true }
          | .ok dtos =>
            let r := processDtos env msg.metadata dtos
            { events := r.1, auditLog := r.2, failed := false }
    else if isHl7Ingest msg then
      let bucket := jsOrS msg.payload.s3bucket msg.metadata.s3bucket
      let key := jsOrS msg.payload.s3key msg.metadata.s3key
      if bucket = "" ∨ key = "" then { events := [], auditLog := [], failed := true }
      else
        match env.s3get bucket key with
        | none => { events := [], auditLog := [], failed := true }
        | some buf =>
          let dtos := parseHl7v2 buf
            { tenantId := msg.metadata.tenantId, sourceSystem := some "hl7v2:file" }
            env.now
          let r := processDtos env msg.metadata dtos
          { events := r.1, auditLog := r.2, failed := false }
    else
      let suid := msg.payload.studyInstanceUID
      let normalized : EtlNormalizedV1 :=
        { schema := "etl.normalized.v1"
          metadata :=
            { tenantId := msg.metadata.tenantId
              source := msg.metadata.source
              normalizedAt := env.now
              idempotencyKey := msg.metadata.idempotencyKey
              traceId := env.traceId }
          data :=
            { entityType := if suid ≠ "" then "study" else "observation"
              entityId := if suid ≠ "" then suid else msg.metadata.idempotencyKey
              patientId := msg.payload.patientId
              modality := msg.payload.modality
              attributes := .generic msg.payload } }
      let lg := auditFireAndForget env.auditArn env.auditInvoke
        { atype := "etl.normalized.v1"
          tenantId := normalized.metadata.tenantId
          traceId := normalized.metadata.traceId
          info := normalized.data.entityId }
      { events := [normalized], auditLog := lg, failed := false }

/-- Batch outcome of the orchestrator: all emitted events and the
batchItemFailures report (message ids). -/
structure BatchResult where
  events : List EtlNormalizedV1
  failures : List String
deriving DecidableEq, Repr

/-- services/normalize main: process every record of the batch, each inside
its own try/catch, collecting the message ids of failing items into
batchItemFailures (modelled as a fold; item outcomes are independent, so
the concurrent interleaving is irrelevant to events and failures). -/
def mainNormalize (env : OrchestratorEnv) (records : List SqsRecord) :
    BatchResult :=
  records.foldl (fun acc rec =>
    let r := processItem env rec
    { events := acc.events ++ r.events
      failures := acc.failures ++ (if r.failed then [rec.messageId] else []) })
    { events := [], failures := [] }

/-- DynamoDB key set from services/persist keys(): tenant partition key,
entity sort key, and the inverse GSI pair. -/
structure PersistKeys where
  PK : String
  SK : String
  GSI1PK : String
  GSI1SK : String
deriving DecidableEq, Repr

/-- keys from services/persist: derive the composite keys of a normalized
event. -/
def keys (n : EtlNormalizedV1) : PersistKeys :=
  { PK := "TENANT#" ++ n.metadata.tenantId
    SK := "ENTITY#" ++ n.data.entityType ++ "#" ++ n.data.entityId
    GSI1PK := "ENTITY#" ++ n.data.entityType ++ "#" ++ n.data.entityId
    GSI1SK := "TENANT#" ++ n.metadata.tenantId }

/-- One item of the keyed store, holding exactly the attributes the
UpdateExpression sets. -/
structure StoredRecord where
  entityType : String
  entityId : String
  attributes : Attrs
  tenantId : String
  updatedAt : String
  idempotencyKey : String
  gsi1pk : String
  gsi1sk : String
  version : Nat
deriving DecidableEq, Repr

/-- The keyed store as an association list from (PK, SK) to the stored
record. -/
abbrev Store := List ((String × String) × StoredRecord)

/-- Lookup in the keyed store. -/
def storeGet : Store → String × String → Option StoredRecord
  | [], _ => none
  | (k0, v0) :: rest, k => if k0 = k then some v0 else storeGet rest k

/-- Upsert into the keyed store (replace in place or append). -/
def storeSet : Store → String × String → StoredRecord → Store
  | [], k, v => [(k, v)]
  | (k0, v0) :: rest, k, v =>
    if k0 = k then (k, v) :: rest else (k0, v0) :: storeSet rest k v

/-- The conditional UpdateCommand of services/persist: guarded by
attribute_not_exists(idempotencyKey) OR idempotencyKey <> incoming, it
overwrites the entity attributes and sets
version = if_not_exists(version, 0) + 1; when the guard fails DynamoDB
raises a ConditionalCheckFailedException and the item is left untouched. -/
def conditionalUpdate (st : Store) (now : String) (n : EtlNormalizedV1) :
    Except String (Store × Nat) :=
  let k := keys n
  match storeGet st (k.PK, k.SK) with
  | none =>
    let fresh : StoredRecord :=
      { entityType := n.data.entityType
        entityId := n.data.entityId
        attributes := n.data.attributes
        tenantId := n.metadata.tenantId
        updatedAt := now
        idempotencyKey := n.metadata.idempotencyKey
        gsi1pk := k.GSI1PK
        gsi1sk := k.GSI1SK
        version := 1 }
    .ok (storeSet st (k.PK, k.SK) fresh, 1)
  | some r =>
    if r.idempotencyKey ≠ n.metadata.idempotencyKey then
      let upd : StoredRecord :=
        { entityType := n.data.entityType
          entityId := n.data.entityId
          attributes := n.data.attributes
          tenantId := n.metadata.tenantId
          updatedAt := now
          idempotencyKey := n.metadata.idempotencyKey
          gsi1pk := k.GSI1PK
          gsi1sk := k.GSI1SK
          version := r.version + 1 }
      .ok (storeSet st (k.PK, k.SK) upd, r.version + 1)
    else .error "ConditionalCheckFailedException"

/-- Record section of an etl.persisted.v1 confirmation event. -/
structure PersistedRecordOut where
  pk : String
  sk : String
  gsi1pk : String
  gsi1sk : String
  entityType : String
  entityId : String
  attributes : Attrs
  version : Option Nat
deriving DecidableEq, Repr

/-- Metadata of an etl.persisted.v1 confirmation event. -/
structure PersistedMeta where
  tenantId : String
  persistedAt : String
  traceId : String
deriving DecidableEq, Repr

/-- An etl.persisted.v1 confirmation event. -/
structure EtlPersistedV1 where
  schema : String
  metadata : PersistedMeta
  record : PersistedRecordOut
deriving DecidableEq, Repr

/-- Modelled from the spec: the etl.normalized.v1 JSON schema file validated
by the persistence engine before the write is not part of the sources, so
JSON.parse plus envelope validation on an incoming body is abstracted as in
the orchestrator. -/
inductive PersistBody where
  | malformed : PersistBody
  | valid : EtlNormalizedV1 → PersistBody
deriving DecidableEq, Repr

/-- One SQS record of a persistence batch. -/
structure PersistSqsRecord where
  messageId : String
  body : PersistBody
deriving DecidableEq, Repr

/-- Per-item outcome of the persistence engine. -/
structure PersistItemOut where
  store : Store
  emitted : List EtlPersistedV1
  auditLog : List String
  failedId : Option String
deriving DecidableEq, Repr

/-- Per-record step of services/persist main: validate the body, perform the
conditional update, and on success emit the etl.persisted.v1 confirmation
and fire the audit notification; any throw (validation or condition
failure) is caught and the record is pushed to batchItemFailures with the
store untouched. -/
def persistProcessRecord (arn : String)
    (invoke : AuditPayload → Except String Unit) (now : String) (st : Store)
    (rec : PersistSqsRecord) : PersistItemOut :=
  match rec.body with
  | .malformed => { store := st, emitted := [], auditLog := [], failedId := some rec.messageId }
  | .valid n =>
    match conditionalUpdate st now n with
    | .error _ =>
      { store := st, emitted := [], auditLog := [], failedId := some rec.messageId }
    | .ok sv =>
      let k := keys n
      let persisted : EtlPersistedV1 :=
        { schema := "etl.persisted.v1"
          metadata :=
            { tenantId := n.metadata.tenantId
              persistedAt := now
              traceId := n.metadata.idempotencyKey }
          record :=
            { pk := k.PK
              sk := k.SK
              gsi1pk := k.GSI1PK
              gsi1sk := k.GSI1SK
              entityType := n.data.entityType
              entityId := n.data.entityId
              attributes := n.data.attributes
              version := some sv.2 } }
      let lg := auditFireAndForget arn invoke
        { atype := "etl.persisted.v1"
          tenantId := n.metadata.tenantId
          traceId := n.metadata.idempotencyKey
          info := k.SK }
      { store := sv.1, emitted := [persisted], auditLog := lg, failedId := none }

/-- Batch outcome of the persistence engine. -/
structure PersistBatchResult where
  store : Store
  emitted : List EtlPersistedV1
  failures : List String
deriving DecidableEq, Repr

/-- services/persist main over a batch: fold the per-record step through the
shared store, collecting confirmations and batchItemFailures. -/
def persistMain (arn : String) (invoke : AuditPayload → Except String Unit)
    (now : String) (st : Store) (recs : List PersistSqsRecord) :
    PersistBatchResult :=
  recs.foldl (fun acc rec =>
    let r := persistProcessRecord arn invoke now acc.store rec
    { store := r.store
      emitted := acc.emitted ++ r.emitted
      failures := acc.failures ++
        (match r.failedId with
         | some i => [i]
         | none => []) })
    { store := st, emitted := [], failures := [] }

/-- C9: every DTO surviving validation on the CSV or HL7 path is wrapped by
buildNormalizedEventFromDto into an envelope with entityType observation
and entityId patientId : code : effectiveDateTime, and consequently two
events built from DTOs agreeing on patient, code and timestamp under the
same tenant derive the same persisted-record keys, hence overwrite one
logical record. -/
theorem C9_entity_identity (dto : NormalizedObservation) (meta : IngestMeta)
    (now traceId : String) :
    (buildNormalizedEventFromDto dto meta now traceId).data.entityType
      = "observation"
    ∧ (buildNormalizedEventFromDto dto meta now traceId).data.entityId
        = dto.patientId ++ ":" ++ dto.code ++ ":" ++ dto.effectiveDateTime
    ∧ ∀ (dto2 : NormalizedObservation) (meta2 : IngestMeta)
        (now2 traceId2 : String),
        dto.patientId = dto2.patientId → dto.code = dto2.code →
        dto.effectiveDateTime = dto2.effectiveDateTime →
        meta.tenantId = meta2.tenantId →
        keys (buildNormalizedEventFromDto dto meta now traceId)
          = keys (buildNormalizedEventFromDto dto2 meta2 now2 traceId2) := by
  refine ⟨rfl, rfl, ?_⟩
  intro dto2 meta2 now2 traceId2 hp hc he ht
  unfold keys buildNormalizedEventFromDto
  dsimp only
  rw [hp, hc, he, ht]

/-- Witness for C9: two rows with the same patient, code and timestamp under
one tenant collapse to the same keys. -/
theorem C9_entity_identity_witness :
    keys (buildNormalizedEventFromDto
        { schemaVersion := 1, patientId := "p1", code := "718-7",
          value := .num 56 1, unit := "mmol/L",
          effectiveDateTime := "2025-09-30T10:00:00Z",
          sourceSystem := "csv:labx", ingestHash := "sha256:aaaaaaaaaa" }
        { tenantId := "t1", source := "reprocess", idempotencyKey := "k1" }
        "2025-01-01T00:00:00Z" "trace1")
      = keys (buildNormalizedEventFromDto
        { schemaVersion := 1, patientId := "p1", code := "718-7",
          value := .num 57 1, unit := "mg/dL",
          effectiveDateTime := "2025-09-30T10:00:00Z",
          sourceSystem := "hl7v2:file", ingestHash := "sha256:bbbbbbbbbb" }
        { tenantId := "t1", source := "other", idempotencyKey := "k2" }
        "2025-01-02T00:00:00Z" "trace2") :=
  (C9_entity_identity
    { schemaVersion := 1, patientId := "p1", code := "718-7",
      value := .num 56 1, unit := "mmol/L",
      effectiveDateTime := "2025-09-30T10:00:00Z",
      sourceSystem := "csv:labx", ingestHash := "sha256:aaaaaaaaaa" }
    { tenantId := "t1", source := "reprocess", idempotencyKey := "k1" }
    "2025-01-01T00:00:00Z" "trace1").2.2
    { schemaVersion := 1, patientId := "p1", code := "718-7",
      value := .num 57 1, unit := "mg/dL",
      effectiveDateTime := "2025-09-30T10:00:00Z",
      sourceSystem := "hl7v2:file", ingestHash := "sha256:bbbbbbbbbb" }
    { tenantId := "t1", source := "other", idempotencyKey := "k2" }
    "2025-01-02T00:00:00Z" "trace2" rfl rfl rfl rfl

/-- C2: re-delivery of a normalized event whose entity already stores the
same idempotency key makes the conditional write fail its guard instead of
succeeding as a no-op: the store (including the version) is left unchanged,
nothing is emitted, and the record is reported in batchItemFailures rather
than silently dropped. -/
theorem C2_same_key_redelivery_conflict (arn : String)
    (invoke : AuditPayload → Except String Unit) (now : String) (st : Store)
    (rec : PersistSqsRecord) (n : EtlNormalizedV1) (r : StoredRecord)
    (hb : rec.body = .valid n)
    (hs : storeGet st ((keys n).PK, (keys n).SK) = some r)
    (hk : r.idempotencyKey = n.metadata.idempotencyKey) :
    persistMain arn invoke now st [rec]
      = { store := st, emitted := [], failures := [rec.messageId] } := by
  unfold persistMain
  simp only [List.foldl_cons, List.foldl_nil]
  unfold persistProcessRecord
  rw [hb]
  unfold conditionalUpdate
  dsimp only
  rw [hs]
  dsimp only
  rw [if_neg (by simp [hk])]
  rfl

/-- Concrete stored record for the C2 witness. -/
def w2stored : StoredRecord :=
  { entityType := "observation", entityId := "e1",
    attributes := .generic {}, tenantId := "t1",
    updatedAt := "2025-01-01T00:00:00Z", idempotencyKey := "K2",
    gsi1pk := "ENTITY#observation#e1", gsi1sk := "TENANT#t1", version := 2 }

/-- Concrete store for the C2 witness. -/
def w2store : Store :=
  [(("TENANT#t1", "ENTITY#observation#e1"), w2stored)]

/-- Concrete normalized event for the C2 witness, re-delivering key K2. -/
def w2event : EtlNormalizedV1 :=
  { schema := "etl.normalized.v1"
    metadata := { tenantId := "t1", source := "s",
                  normalizedAt := "2025-01-02T00:00:00Z",
                  idempotencyKey := "K2", traceId := "tr" }
    data := { entityType := "observation", entityId := "e1",
              patientId := "p1", modality := "",
              attributes := .generic {} } }

/-- Witness for C2 at a concrete store and event with an already stored
identical idempotency key. -/
theorem C2_same_key_redelivery_conflict_witness :
    persistMain "" (fun _ => Except.ok ()) "2025-01-02T00:00:00Z" w2store
      [{ messageId := "m1", body := .valid w2event }]
      = { store := w2store, emitted := [], failures := ["m1"] } :=
  C2_same_key_redelivery_conflict "" (fun _ => Except.ok ())
    "2025-01-02T00:00:00Z" w2store
    { messageId := "m1", body := .valid w2event } w2event w2stored
    rfl (by decide) rfl

/-- Lookup after upsert at the same key yields the new record. -/
theorem storeGet_storeSet_same (st : Store) (k : String × String)
    (v : StoredRecord) : storeGet (storeSet st k v) k = some v := by
  induction st with
  | nil => simp [storeSet, storeGet]
  | cons h t ih =>
    obtain ⟨k0, v0⟩ := h
    by_cases hk : k0 = k
    · simp [storeSet, hk, storeGet]
    · simp [storeSet, hk, storeGet, ih]

/-- Lookup after upsert at a different key is unchanged. -/
theorem storeGet_storeSet_other (st : Store) (k k2 : String × String)
    (v : StoredRecord) (h : k2 ≠ k) :
    storeGet (storeSet st k v) k2 = storeGet st k2 := by
  induction st with
  | nil => simp [storeSet, storeGet, Ne.symm h]
  | cons hd t ih =>
    obtain ⟨k0, v0⟩ := hd
    by_cases hk : k0 = k
    · subst hk
      simp [storeSet, storeGet, Ne.symm h]
    · simp [storeSet, hk, storeGet, ih]

/-- A successful conditional update never deletes a stored record and never
decreases its version. -/
theorem conditionalUpdate_mono (st : Store) (now : String)
    (n : EtlNormalizedV1) (k : String × String) (r : StoredRecord)
    (hs : storeGet st k = some r) (st2 : Store) (v : Nat)
    (hok : conditionalUpdate st now n = .ok (st2, v)) :
    ∃ r2, storeGet st2 k = some r2 ∧ r.version ≤ r2.version := by
  unfold conditionalUpdate at hok
  dsimp only at hok
  cases hcur : storeGet st ((keys n).PK, (keys n).SK) with
  | none =>
    rw [hcur] at hok
    dsimp only at hok
    simp only [Except.ok.injEq, Prod.mk.injEq] at hok
    obtain ⟨hst2, -⟩ := hok
    by_cases hkk : k = ((keys n).PK, (keys n).SK)
    · rw [hkk] at hs
      rw [hs] at hcur
      exact absurd hcur (by simp)
    · refine ⟨r, ?_, le_refl _⟩
      rw [← hst2, storeGet_storeSet_other st _ _ _ hkk]
      exact hs
  | some r0 =>
    rw [hcur] at hok
    dsimp only at hok
    by_cases hcond : r0.idempotencyKey ≠ n.metadata.idempotencyKey
    · rw [if_pos hcond] at hok
      simp only [Except.ok.injEq, Prod.mk.injEq] at hok
      obtain ⟨hst2, -⟩ := hok
      by_cases hkk : k = ((keys n).PK, (keys n).SK)
      · rw [hkk] at hs
        rw [hs] at hcur
        have hrr : r = r0 := by
          injection hcur
        rw [← hst2, hkk, hrr]
        exact ⟨_, storeGet_storeSet_same st _ _, Nat.le_succ _⟩
      · refine ⟨r, ?_, le_refl _⟩
        rw [← hst2, storeGet_storeSet_other st _ _ _ hkk]
        exact hs
    · rw [if_neg hcond] at hok
      exact absurd hok (by simp)

/-- The per-record persistence step never deletes a stored record and never
decreases its version. -/
theorem persistProcessRecord_mono (arn : String)
    (invoke : AuditPayload → Except String Unit) (now : String) (st : Store)
    (rec : PersistSqsRecord) (k : String × String) (r : StoredRecord)
    (hs : storeGet st k = some r) :
    ∃ r2, storeGet (persistProcessRecord arn invoke now st rec).store k
        = some r2 ∧ r.version ≤ r2.version := by
  unfold persistProcessRecord
  cases hb : rec.body with
  | malformed =>
    dsimp only
    exact ⟨r, hs, le_refl _⟩
  | valid n =>
    dsimp only
    cases hcu : conditionalUpdate st now n with
    | error e =>
      dsimp only
      exact ⟨r, hs, le_refl _⟩
    | ok sv =>
      dsimp only
      exact conditionalUpdate_mono st now n k r hs sv.1 sv.2 (by rw [hcu])

/-- The store component of the batch fold is the fold of the per-record
store transitions. -/
theorem persistMain_store_char (arn : String)
    (invoke : AuditPayload → Except String Unit) (now : String)
    (recs : List PersistSqsRecord) :
    ∀ acc : PersistBatchResult,
      (recs.foldl (fun acc rec =>
        let r := persistProcessRecord arn invoke now acc.store rec
        { store := r.store
          emitted := acc.emitted ++ r.emitted
          failures := acc.failures ++
            (match r.failedId with
             | some i => [i]
             | none => []) }) acc).store
        = recs.foldl
            (fun s rec => (persistProcessRecord arn invoke now s rec).store)
            acc.store := by
  induction recs with
  | nil => intro acc; rfl
  | cons rec t ih =>
    intro acc
    simp only [List.foldl_cons]
    rw [ih]

/-- Monotone non-deleting store evolution across a whole batch. -/
theorem persistMain_mono (arn : String)
    (invoke : AuditPayload → Except String Unit) (now : String)
    (recs : List PersistSqsRecord) :
    ∀ (st : Store) (k : String × String) (r : StoredRecord),
      storeGet st k = some r →
      ∃ r2, storeGet (persistMain arn invoke now st recs).store k = some r2
        ∧ r.version ≤ r2.version := by
  have hfold : ∀ (recs : List PersistSqsRecord) (st : Store)
      (k : String × String) (r : StoredRecord), storeGet st k = some r →
      ∃ r2, storeGet (recs.foldl
          (fun s rec => (persistProcessRecord arn invoke now s rec).store) st) k
          = some r2 ∧ r.version ≤ r2.version := by
    intro recs
    induction recs with
    | nil => intro st k r hs; exact ⟨r, hs, le_refl _⟩
    | cons rec t ih =>
      intro st k r hs
      obtain ⟨r1, hr1, hv1⟩ := persistProcessRecord_mono arn invoke now st rec k r hs
      obtain ⟨r2, hr2, hv2⟩ := ih _ k r1 hr1
      exact ⟨r2, by simpa using hr2, le_trans hv1 hv2⟩
  intro st k r hs
  unfold persistMain
  rw [persistMain_store_char]
  exact hfold recs st k r hs

/-- C3: the first accepted write of an entity stores version 1, every later
accepted write (different idempotency key) stores exactly the previous
version plus one (so the second write yields version 2), the version at any
key never decreases across a batch, and records are never deleted by this
subsystem (a stored record is still stored after any batch). -/
theorem C3_version_monotonic :
    (∀ (st : Store) (now : String) (n : EtlNormalizedV1),
      storeGet st ((keys n).PK, (keys n).SK) = none →
      ∃ st2, conditionalUpdate st now n = .ok (st2, 1)
        ∧ (storeGet st2 ((keys n).PK, (keys n).SK)).map StoredRecord.version
            = some 1)
    ∧ (∀ (st : Store) (now : String) (n : EtlNormalizedV1) (r : StoredRecord),
      storeGet st ((keys n).PK, (keys n).SK) = some r →
      r.idempotencyKey ≠ n.metadata.idempotencyKey →
      ∃ st2, conditionalUpdate st now n = .ok (st2, r.version + 1)
        ∧ (storeGet st2 ((keys n).PK, (keys n).SK)).map StoredRecord.version
            = some (r.version + 1))
    ∧ (∀ (arn : String) (invoke : AuditPayload → Except String Unit)
        (now : String) (st : Store) (recs : List PersistSqsRecord)
        (k : String × String) (r : StoredRecord),
      storeGet st k = some r →
      ∃ r2, storeGet (persistMain arn invoke now st recs).store k = some r2
        ∧ r.version ≤ r2.version)
    ∧ (∀ (st : Store) (now now2 : String) (n1 n2 : EtlNormalizedV1),
      keys n1 = keys n2 →
      storeGet st ((keys n1).PK, (keys n1).SK) = none →
      n2.metadata.idempotencyKey ≠ n1.metadata.idempotencyKey →
      ∃ st1 st2, conditionalUpdate st now n1 = .ok (st1, 1)
        ∧ conditionalUpdate st1 now2 n2 = .ok (st2, 2)) := by
  refine ⟨?_, ?_, ?_, ?_⟩
  · intro st now n hnone
    have heq : conditionalUpdate st now n
        = .ok (storeSet st ((keys n).PK, (keys n).SK)
            { entityType := n.data.entityType, entityId := n.data.entityId,
              attributes := n.data.attributes, tenantId := n.metadata.tenantId,
              updatedAt := now, idempotencyKey := n.metadata.idempotencyKey,
              gsi1pk := (keys n).GSI1PK, gsi1sk := (keys n).GSI1SK,
              version := 1 }, 1) := by
      unfold conditionalUpdate
      dsimp only
      rw [hnone]
    exact ⟨_, heq, by rw [storeGet_storeSet_same]; rfl⟩
  · intro st now n r hsome hne
    have heq : conditionalUpdate st now n
        = .ok (storeSet st ((keys n).PK, (keys n).SK)
            { entityType := n.data.entityType, entityId := n.data.entityId,
              attributes := n.data.attributes, tenantId := n.metadata.tenantId,
              updatedAt := now, idempotencyKey := n.metadata.idempotencyKey,
              gsi1pk := (keys n).GSI1PK, gsi1sk := (keys n).GSI1SK,
              version := r.version + 1 }, r.version + 1) := by
      unfold conditionalUpdate
      dsimp only
      rw [hsome]
      dsimp only
      rw [if_pos hne]
    exact ⟨_, heq, by rw [storeGet_storeSet_same]; rfl⟩
  · intro arn invoke now st recs k r hs
    exact persistMain_mono arn invoke now recs st k r hs
  · intro st now now2 n1 n2 hkeys hnone hne
    have heq1 : conditionalUpdate st now n1
        = .ok (storeSet st ((keys n1).PK, (keys n1).SK)
            { entityType := n1.data.entityType, entityId := n1.data.entityId,
              attributes := n1.data.attributes, tenantId := n1.metadata.tenantId,
              updatedAt := now, idempotencyKey := n1.metadata.idempotencyKey,
              gsi1pk := (keys n1).GSI1PK, gsi1sk := (keys n1).GSI1SK,
              version := 1 }, 1) := by
      unfold conditionalUpdate
      dsimp only
      rw [hnone]
    have heq2 : conditionalUpdate
        (storeSet st ((keys n1).PK, (keys n1).SK)
          { entityType := n1.data.entityType, entityId := n1.data.entityId,
            attributes := n1.data.attributes, tenantId := n1.metadata.tenantId,
            updatedAt := now, idempotencyKey := n1.metadata.idempotencyKey,
            gsi1pk := (keys n1).GSI1PK, gsi1sk := (keys n1).GSI1SK,
            version := 1 }) now2 n2
        = .ok (storeSet
            (storeSet st ((keys n1).PK, (keys n1).SK)
              { entityType := n1.data.entityType, entityId := n1.data.entityId,
                attributes := n1.data.attributes,
                tenantId := n1.metadata.tenantId, updatedAt := now,
                idempotencyKey := n1.metadata.idempotencyKey,
                gsi1pk := (keys n1).GSI1PK, gsi1sk := (keys n1).GSI1SK,
                version := 1 })
            ((keys n2).PK, (keys n2).SK)
            { entityType := n2.data.entityType, entityId := n2.data.entityId,
              attributes := n2.data.attributes, tenantId := n2.metadata.tenantId,
              updatedAt := now2, idempotencyKey := n2.metadata.idempotencyKey,
              gsi1pk := (keys n2).GSI1PK, gsi1sk := (keys n2).GSI1SK,
              version := 2 }, 2) := by
      unfold conditionalUpdate
      dsimp only
      rw [← hkeys, storeGet_storeSet_same]
      dsimp only
      rw [if_pos (Ne.symm hne)]
    exact ⟨_, _, heq1, heq2⟩

/-- Witness for C3: an empty store, a first write with key K1 producing
version 1, and a second write with key K2 producing version 2. -/
theorem C3_version_monotonic_witness :
    ∃ st1 st2,
      conditionalUpdate [] "2025-01-01T00:00:00Z"
        { schema := "etl.normalized.v1"
          metadata := { tenantId := "t1", source := "s",
                        normalizedAt := "2025-01-01T00:00:00Z",
                        idempotencyKey := "K1", traceId := "a" }
          data := { entityType := "observation", entityId := "e1",
                    patientId := "p1", modality := "",
                    attributes := .generic {} } } = .ok (st1, 1)
      ∧ conditionalUpdate st1 "2025-01-02T00:00:00Z"
        { schema := "etl.normalized.v1"
          metadata := { tenantId := "t1", source := "s",
                        normalizedAt := "2025-01-02T00:00:00Z",
                        idempotencyKey := "K2", traceId := "b" }
          data := { entityType := "observation", entityId := "e1",
                    patientId := "p1", modality := "",
                    attributes := .generic {} } } = .ok (st2, 2) :=
  C3_version_monotonic.2.2.2 [] "2025-01-01T00:00:00Z" "2025-01-02T00:00:00Z"
    _ _ rfl (by decide) (by decide)

/-- A malformed item fails immediately with no emissions. -/
theorem processItem_malformed (env : OrchestratorEnv) (rec : SqsRecord)
    (h : rec.body = .malformed) :
    processItem env rec = { events := [], auditLog := [], failed := true } := by
  unfold processItem
  rw [h]

/-- The batch fold of the orchestrator splits into per-item events and the
message ids of failing items. -/
theorem mainNormalize_char (env : OrchestratorEnv) (records : List SqsRecord) :
    ∀ acc : BatchResult,
      (records.foldl (fun acc rec =>
        let r := processItem env rec
        { events := acc.events ++ r.events
          failures := acc.failures ++ (if r.failed then [rec.messageId] else []) })
        acc)
        = { events := acc.events
              ++ (records.map (fun rec => (processItem env rec).events)).flatten
            failures := acc.failures
              ++ (records.filter (fun rec => (processItem env rec).failed)).map
                   (fun rec => rec.messageId) } := by
  induction records with
  | nil =>
    intro acc
    simp
  | cons rec t ih =>
    intro acc
    simp only [List.foldl_cons, List.map_cons, List.flatten, List.filter_cons]
    rw [ih]
    by_cases hf : (processItem env rec).failed = true
    · simp [hf, List.append_assoc]
    · simp [hf, List.append_assoc]

/-- C6: in a normalization batch, an item failing raw-envelope validation
(or otherwise malformed) is reported as a batch-item failure under its own
message id, while every other item is still processed to completion: the
failure report contains exactly the bad id, and the emitted events are
exactly the concatenation of the other items' events. -/
theorem C6_batch_isolation (env : OrchestratorEnv) (pre post : List SqsRecord)
    (bad : SqsRecord) (hbad : bad.body = .malformed)
    (hok : ∀ r ∈ pre ++ post, (processItem env r).failed = false) :
    (mainNormalize env (pre ++ bad :: post)).failures = [bad.messageId]
    ∧ (mainNormalize env (pre ++ bad :: post)).events
        = ((pre ++ post).map (fun r => (processItem env r).events)).flatten := by
  have hbadi := processItem_malformed env bad hbad
  have hpre : pre.filter (fun rec => (processItem env rec).failed) = [] :=
    List.filter_eq_nil_iff.mpr
      (fun a ha => by simp [hok a (List.mem_append_left _ ha)])
  have hpost : post.filter (fun rec => (processItem env rec).failed) = [] :=
    List.filter_eq_nil_iff.mpr
      (fun a ha => by simp [hok a (List.mem_append_right _ ha)])
  unfold mainNormalize
  rw [mainNormalize_char]
  constructor
  · dsimp only
    rw [List.nil_append, List.filter_append, List.filter_cons]
    simp [hpre, hpost, hbadi]
  · dsimp only
    rw [List.nil_append, List.map_append, List.map_cons, List.flatten_append]
    simp [hbadi, List.map_append, List.flatten_append]

/-- Concrete generic-path record for the C6 witness. -/
def w6good : SqsRecord :=
  { messageId := "good-1"
    body := .valid
      { metadata := { tenantId := "t1", source := "api", idempotencyKey := "k1" }
        payload := { studyInstanceUID := "1.2.3", patientId := "P001",
                     modality := "MR" } } }

/-- Concrete orchestrator environment for the C6 witness. -/
def w6env : OrchestratorEnv :=
  { s3get := fun _ _ => none
    now := "2025-01-01T00:00:00.000Z"
    traceId := "trace-1"
    auditArn := ""
    auditInvoke := fun _ => Except.ok () }

/-- Witness for C6: one malformed item between healthy generic items is the
only reported failure. -/
theorem C6_batch_isolation_witness :
    (mainNormalize w6env
        ([w6good] ++ { messageId := "bad-1", body := .malformed } :: [w6good])).failures
      = ["bad-1"] :=
  (C6_batch_isolation w6env [w6good] [w6good]
    { messageId := "bad-1", body := .malformed } rfl (by decide)).1

/-- The events component of the per-DTO loop does not depend on the audit
invocation: the audit result lands only in the warning log. -/
theorem procStep_events_ext (env : OrchestratorEnv)
    (f g : AuditPayload → Except String Unit) (meta : IngestMeta) :
    ∀ (dtos : List NormalizedObservation) (ev : List EtlNormalizedV1)
      (l1 l2 : List String),
      (dtos.foldl (procStep { env with auditInvoke := f } meta) (ev, l1)).1
        = (dtos.foldl (procStep { env with auditInvoke := g } meta) (ev, l2)).1 := by
  intro dtos
  induction dtos with
  | nil =>
    intro ev l1 l2
    rfl
  | cons dto t ih =>
    intro ev l1 l2
    simp only [List.foldl_cons]
    cases hz : zodParseObservation dto with
    | error e =>
      simp only [procStep, hz]
      exact ih ev l1 l2
    | ok dto2 =>
      cases hv : validateObservation (dtoToFhirObservation dto2) with
      | err es =>
        simp only [procStep, hz, hv]
        exact ih ev l1 l2
      | ok =>
        simp only [procStep, hz, hv]
        exact ih _ _ _

/-- processItem classification and emissions do not depend on the audit
invocation. -/
theorem processItem_audit_ext (env : OrchestratorEnv)
    (f g : AuditPayload → Except String Unit) (rec : SqsRecord) :
    (processItem { env with auditInvoke := f } rec).events
      = (processItem { env with auditInvoke := g } rec).events
    ∧ (processItem { env with auditInvoke := f } rec).failed
      = (processItem { env with auditInvoke := g } rec).failed := by
  cases rec with
  | mk mid body =>
    cases body with
    | malformed => exact ⟨rfl, rfl⟩
    | valid msg =>
      unfold processItem
      dsimp only
      by_cases hcsv : isCsvIngest msg = true
      · rw [if_pos hcsv, if_pos hcsv]
        by_cases hbk : (jsOrS msg.payload.s3bucket msg.metadata.s3bucket = ""
            ∨ jsOrS msg.payload.s3key msg.metadata.s3key = "")
        · rw [if_pos hbk, if_pos hbk]
          exact ⟨rfl, rfl⟩
        · rw [if_neg hbk, if_neg hbk]
          cases hs3 : env.s3get (jsOrS msg.payload.s3bucket msg.metadata.s3bucket)
              (jsOrS msg.payload.s3key msg.metadata.s3key) with
          | none => exact ⟨rfl, rfl⟩
          | some buf =>
            dsimp only
            cases hp : parseLabxCsv buf
                { tenantId := msg.metadata.tenantId,
                  sourceSystem := some "csv:labx" } with
            | error e => exact ⟨rfl, rfl⟩
            | ok dtos =>
              dsimp only
              exact ⟨procStep_events_ext env f g msg.metadata dtos [] [] [], rfl⟩
      · rw [if_neg hcsv, if_neg hcsv]
        by_cases hhl7 : isHl7Ingest msg = true
        · rw [if_pos hhl7, if_pos hhl7]
          by_cases hbk : (jsOrS msg.payload.s3bucket msg.metadata.s3bucket = ""
              ∨ jsOrS msg.payload.s3key msg.metadata.s3key = "")
          · rw [if_pos hbk, if_pos hbk]
            exact ⟨rfl, rfl⟩
          · rw [if_neg hbk, if_neg hbk]
            cases hs3 : env.s3get (jsOrS msg.payload.s3bucket msg.metadata.s3bucket)
                (jsOrS msg.payload.s3key msg.metadata.s3key) with
            | none => exact ⟨rfl, rfl⟩
            | some buf =>
              dsimp only
              exact ⟨procStep_events_ext env f g msg.metadata _ [] [] [], rfl⟩
        · rw [if_neg hhl7, if_neg hhl7]
          exact ⟨rfl, rfl⟩

/-- C8: the best-effort audit notification never throws - a failing
underlying invocation is caught and turned into a warning line - and the
audit outcome never changes the success / failure classification or the
emissions of the pipeline item that fired it, neither in the orchestrator
nor in the persistence engine. -/
theorem C8_audit_best_effort :
    (∀ (arn : String) (invoke : AuditPayload → Except String Unit)
       (p : AuditPayload) (e : String),
      auditAttempt arn invoke p = .error e →
      auditFireAndForget arn invoke p = ["audit-invoke-failed " ++ e])
    ∧ (∀ (env : OrchestratorEnv) (f g : AuditPayload → Except String Unit)
        (rec : SqsRecord),
      (processItem { env with auditInvoke := f } rec).events
        = (processItem { env with auditInvoke := g } rec).events
      ∧ (processItem { env with auditInvoke := f } rec).failed
        = (processItem { env with auditInvoke := g } rec).failed)
    ∧ (∀ (arn : String) (f g : AuditPayload → Except String Unit)
        (now : String) (st : Store) (rec : PersistSqsRecord),
      (persistProcessRecord arn f now st rec).store
        = (persistProcessRecord arn g now st rec).store
      ∧ (persistProcessRecord arn f now st rec).emitted
        = (persistProcessRecord arn g now st rec).emitted
      ∧ (persistProcessRecord arn f now st rec).failedId
        = (persistProcessRecord arn g now st rec).failedId) := by
  refine ⟨?_, ?_, ?_⟩
  · intro arn invoke p e h
    unfold auditFireAndForget
    rw [h]
  · intro env f g rec
    exact processItem_audit_ext env f g rec
  · intro arn f g now st rec
    unfold persistProcessRecord
    cases hb : rec.body with
    | malformed => exact ⟨rfl, rfl, rfl⟩
    | valid n =>
      dsimp only
      cases hcu : conditionalUpdate st now n with
      | error e =>
        dsimp only
        exact ⟨rfl, rfl, rfl⟩
      | ok sv =>
        dsimp only
        exact ⟨rfl, rfl, rfl⟩

/-- Witness for C8: a failing underlying invocation is caught and logged. -/
theorem C8_audit_best_effort_witness :
    auditFireAndForget "arn:audit" (fun _ => Except.error "boom")
      { atype := "etl.persisted.v1", tenantId := "t1", traceId := "tr",
        info := "i" }
      = ["audit-invoke-failed boom"] :=
  C8_audit_best_effort.1 "arn:audit" (fun _ => Except.error "boom")
    { atype := "etl.persisted.v1", tenantId := "t1", traceId := "tr",
      info := "i" } "boom" rfl
